import Mathlib

/-!
Verification development for the holochain source-chain core.

The Rust source is shallowly embedded as Lean definitions:
* the source-chain data model (headers, entries, elements) from
  `holochain_zome_types` as used by `source_chain_buffer.rs`;
* `SourceChainBuf` with `put_raw`, `genesis`, `get_element`,
  `get_at_index`, `has_genesis`, `has_initialized`, `iter_back`
  from `crates/holochain/src/core/state/source_chain/source_chain_buffer.rs`;
* the chain-root gatekeeper (`gatekeep`, `try_append_chain`) from
  `src/lib.rs` (actor form) and `src/mutex_based.rs` (mutex form);
* the call-zome workflow from
  `crates/holochain/src/core/workflow/call_zome_workflow.rs`.

Content addressing is modelled by a perfect (injective) hash: the hash
of a header is the header itself, so a `HeaderHash` is represented by
the `Header` it addresses.  This captures exactly the collision-freeness
that content addressing assumes and nothing else.
-/

namespace Holochain

/-- Decidable equality for `Except`, used to evaluate fallible results
on concrete inputs. -/
instance {ε α : Type} [DecidableEq ε] [DecidableEq α] :
    DecidableEq (Except ε α) := fun x y =>
  match x, y with
  | .error a, .error b =>
    if h : a = b then .isTrue (by simp [h]) else .isFalse (by simp [h])
  | .ok a, .ok b =>
    if h : a = b then .isTrue (by simp [h]) else .isFalse (by simp [h])
  | .error _, .ok _ => .isFalse (by simp)
  | .ok _, .error _ => .isFalse (by simp)

/-- Agent identity (a public key), opaque. -/
structure AgentPubKey where
  key : Nat
deriving DecidableEq

/-- Hash identifying a DNA / space, opaque. -/
structure DnaHash where
  hash : Nat
deriving DecidableEq

/-- Header timestamp; the source pairs seconds and nanoseconds, which we
flatten to a single totally ordered number. -/
structure Timestamp where
  t : Nat
deriving DecidableEq

/-- Opaque serialized payload (used for the membrane proof). -/
structure SerializedBytes where
  bytes : Nat
deriving DecidableEq

/-- Entry variants from `holochain_zome_types::entry::Entry`.
Application content is opaque. -/
inductive Entry where
  | Agent (agent : AgentPubKey)
  | App (content : Nat)
  | CapClaim (content : Nat)
  | CapGrant (content : Nat)
deriving DecidableEq

/-- Content address of an entry.  An `AgentPubKey` converts into an
`EntryHash` (the `agent_pubkey.into()` in `genesis`), which we keep as a
separate constructor since the claims never relate the two. -/
inductive EntryHash where
  | ofEntry (e : Entry)
  | ofAgent (a : AgentPubKey)
deriving DecidableEq

/-- Content hash of an entry (`EntryHashed::from_content_sync`). -/
def hashEntry (e : Entry) : EntryHash := .ofEntry e

/-- Entry type discriminant carried by Create/Update headers. -/
inductive EntryType where
  | AgentPubKey
  | App (id : Nat)
  | CapClaim
  | CapGrant
deriving DecidableEq

/-- Header variants from `holochain_zome_types::header`.  The
`prev_header` fields hold the content hash of the previous header; with
the identity hash model they hold the previous header itself.  Only
`Dna` lacks a `prev_header` field, exactly as in the source. -/
inductive Header where
  | Dna (author : AgentPubKey) (timestamp : Timestamp) (hash : DnaHash)
  | AgentValidationPkg (author : AgentPubKey) (timestamp : Timestamp)
      (header_seq : Nat) (prev_header : Header)
      (membrane_proof : Option SerializedBytes)
  | InitZomesComplete (author : AgentPubKey) (timestamp : Timestamp)
      (header_seq : Nat) (prev_header : Header)
  | CreateLink (author : AgentPubKey) (timestamp : Timestamp)
      (header_seq : Nat) (prev_header : Header)
      (base_address : EntryHash) (target_address : EntryHash) (tag : Nat)
  | DeleteLink (author : AgentPubKey) (timestamp : Timestamp)
      (header_seq : Nat) (prev_header : Header)
      (base_address : EntryHash) (link_add_address : Header)
  | OpenChain (author : AgentPubKey) (timestamp : Timestamp)
      (header_seq : Nat) (prev_header : Header) (prev_dna_hash : DnaHash)
  | CloseChain (author : AgentPubKey) (timestamp : Timestamp)
      (header_seq : Nat) (prev_header : Header) (new_dna_hash : DnaHash)
  | Create (author : AgentPubKey) (timestamp : Timestamp)
      (header_seq : Nat) (prev_header : Header)
      (entry_type : EntryType) (entry_hash : EntryHash)
  | Update (author : AgentPubKey) (timestamp : Timestamp)
      (header_seq : Nat) (prev_header : Header)
      (original_entry_address : EntryHash)
      (entry_type : EntryType) (entry_hash : EntryHash)
  | Delete (author : AgentPubKey) (timestamp : Timestamp)
      (header_seq : Nat) (prev_header : Header)
      (deletes_address : Header) (deletes_entry_address : EntryHash)
deriving DecidableEq

/-- Content address of a header.  With the identity hash model a header
hash is the header itself. -/
def HeaderHash := Header
deriving instance DecidableEq for HeaderHash

/-- Content hash of a header (`HeaderHashed::from_content_sync`). -/
def hashHeader (h : Header) : HeaderHash := h

/-- Sequence number of a header (`Header::header_seq` in the source
returns 0 for `Dna`, which has no explicit field). -/
def Header.headerSeq : Header → Nat
  | .Dna _ _ _ => 0
  | .AgentValidationPkg _ _ s _ _ => s
  | .InitZomesComplete _ _ s _ => s
  | .CreateLink _ _ s _ _ _ _ => s
  | .DeleteLink _ _ s _ _ _ => s
  | .OpenChain _ _ s _ _ => s
  | .CloseChain _ _ s _ _ => s
  | .Create _ _ s _ _ _ => s
  | .Update _ _ s _ _ _ _ => s
  | .Delete _ _ s _ _ _ => s

/-- Previous-header link (`Header::prev_header`); absent only for `Dna`. -/
def Header.prevHeader : Header → Option HeaderHash
  | .Dna _ _ _ => none
  | .AgentValidationPkg _ _ _ p _ => some p
  | .InitZomesComplete _ _ _ p => some p
  | .CreateLink _ _ _ p _ _ _ => some p
  | .DeleteLink _ _ _ p _ _ => some p
  | .OpenChain _ _ _ p _ => some p
  | .CloseChain _ _ _ p _ => some p
  | .Create _ _ _ p _ _ => some p
  | .Update _ _ _ p _ _ _ => some p
  | .Delete _ _ _ p _ _ => some p

/-- Timestamp of a header. -/
def Header.timestampOf : Header → Timestamp
  | .Dna _ ts _ => ts
  | .AgentValidationPkg _ ts _ _ _ => ts
  | .InitZomesComplete _ ts _ _ => ts
  | .CreateLink _ ts _ _ _ _ _ => ts
  | .DeleteLink _ ts _ _ _ _ => ts
  | .OpenChain _ ts _ _ _ => ts
  | .CloseChain _ ts _ _ _ => ts
  | .Create _ ts _ _ _ _ => ts
  | .Update _ ts _ _ _ _ _ => ts
  | .Delete _ ts _ _ _ _ => ts

/-- Signature over a header, opaque (produced by the keystore). -/
structure Signature where
  sig : Nat
deriving DecidableEq

/-- A header together with the author's signature
(`SignedHeaderHashed`; the hash is recomputable from the content). -/
structure SignedHeaderHashed where
  header : Header
  signature : Signature
deriving DecidableEq

/-- Address of a signed header (`SignedHeaderHashed::header_address`). -/
def SignedHeaderHashed.header_address (sh : SignedHeaderHashed) : HeaderHash :=
  hashHeader sh.header

/-- An element: signed header plus optional entry, the atomic unit of
the chain (`holochain_types::element::Element`). -/
def Element := SignedHeaderHashed × Option Entry
deriving instance DecidableEq for Element

/-- Header of an element. -/
def Element.headerOf (el : Element) : Header := el.1.header

/-- Modelled from the spec: the HashChain Element Store, a durable keyed
storage of signed header+entry pairs addressed by content hash (spec
section 2 item 1 and section 4.2); the Rust `ElementBuf` is not under
`src/`.  `elements` is keyed by header hash and stores the pair exactly
as written; `entries` is the entry CAS keyed by entry hash. -/
structure ElementBuf where
  elements : HeaderHash → Option Element
  entries : EntryHash → Option Entry

/-- Write an element (`ElementBuf::put`): store the signed header with
its optional entry under the header address, and the entry (when
present) under its own hash. -/
def ElementBuf.put (buf : ElementBuf) (sh : SignedHeaderHashed)
    (maybe_entry : Option Entry) : ElementBuf where
  elements := fun k =>
    if k = sh.header_address then some (sh, maybe_entry) else buf.elements k
  entries :=
    match maybe_entry with
    | none => buf.entries
    | some e => fun k => if k = hashEntry e then some e else buf.entries k

/-- Modelled from the spec: the Chain Sequence Index, a durable ordered
mapping from sequence number to header address (spec section 4.1); the
Rust `ChainSequenceBuf` is not under `src/`.  Append always assigns the
next contiguous integer, so the mapping is represented by the list of
header addresses in sequence order.  The pending-integration flags of
the index are not used by any verified operation and are omitted. -/
structure ChainSequenceBuf where
  seq : List HeaderHash
deriving DecidableEq

/-- Number of indexed headers (`ChainSequenceBuf::len`). -/
def ChainSequenceBuf.len (s : ChainSequenceBuf) : Nat := s.seq.length

/-- Current chain head: address of the most recently appended header. -/
def ChainSequenceBuf.chain_head (s : ChainSequenceBuf) : Option HeaderHash :=
  s.seq.getLast?

/-- Address stored at a sequence number (`ChainSequenceBuf::get`). -/
def ChainSequenceBuf.get (s : ChainSequenceBuf) (i : Nat) : Option HeaderHash :=
  s.seq.get? i

/-- Append a header address at the next sequence number
(`ChainSequenceBuf::put_header`). -/
def ChainSequenceBuf.put_header (s : ChainSequenceBuf) (a : HeaderHash) :
    ChainSequenceBuf :=
  ⟨s.seq ++ [a]⟩

/-- Structural-corruption discriminants
(`source_chain::ChainInvalidReason`). -/
inductive ChainInvalidReason where
  | GenesisDataMissing
  | MalformedGenesisData
  | HeaderAndEntryMismatch
deriving DecidableEq

/-- Error message payload.  The source formats rejection reasons and
missing-dependency lists into strings; we keep them structured so the
content carried by an error is visible. -/
inductive ErrorMsg where
  | text (s : String)
  | deps (hashes : List EntryHash)
deriving DecidableEq

/-- Errors of the source-chain layer (`SourceChainError`). -/
inductive SourceChainError where
  | KeystoreError
  | InvalidCommit (m : ErrorMsg)
  | InvalidLink (reason : String)
  | InvalidStructure (r : ChainInvalidReason)
deriving DecidableEq

/-- The write-side staging structure (`SourceChainBuf`): element store
plus sequence index plus the signing capability.  The keystore is the
external signing collaborator; it may fail (`KeyUnavailable`). -/
structure SourceChainBuf where
  elements : ElementBuf
  sequence : ChainSequenceBuf
  keystore : Header → Option Signature

/-- Current chain head (`SourceChainBuf::chain_head`). -/
def SourceChainBuf.chain_head (buf : SourceChainBuf) : Option HeaderHash :=
  buf.sequence.chain_head

/-- Chain length (`SourceChainBuf::len`). -/
def SourceChainBuf.len (buf : SourceChainBuf) : Nat :=
  buf.sequence.len

/-- True if len is 0 (`SourceChainBuf::is_empty`). -/
def SourceChainBuf.is_empty (buf : SourceChainBuf) : Bool :=
  buf.len = 0

/-- Fast genesis check (`SourceChainBuf::has_genesis`): length at least
three, no structural validation. -/
def SourceChainBuf.has_genesis (buf : SourceChainBuf) : Bool :=
  buf.sequence.len ≥ 3

/-- Fast initialization check (`SourceChainBuf::has_initialized`):
length strictly greater than three. -/
def SourceChainBuf.has_initialized (buf : SourceChainBuf) : Bool :=
  buf.len > 3

/-- Fetch an element by header address (`SourceChainBuf::get_element`). -/
def SourceChainBuf.get_element (buf : SourceChainBuf) (k : HeaderHash) :
    Option Element :=
  buf.elements.elements k

/-- Fetch a signed header by address (`SourceChainBuf::get_header`). -/
def SourceChainBuf.get_header (buf : SourceChainBuf) (k : HeaderHash) :
    Option SignedHeaderHashed :=
  (buf.elements.elements k).map (·.1)

/-- Fetch an entry by hash (`SourceChainBuf::get_entry`). -/
def SourceChainBuf.get_entry (buf : SourceChainBuf) (k : EntryHash) :
    Option Entry :=
  buf.elements.entries k

/-- Fetch the element at a sequence index
(`SourceChainBuf::get_at_index`). -/
def SourceChainBuf.get_at_index (buf : SourceChainBuf) (i : Nat) :
    Option Element :=
  (buf.sequence.get i).bind buf.get_element

/-- Add an element using a fully-formed header
(`SourceChainBuf::put_raw`): hash the header, sign it, append the
address to the sequence index and write the element.  No header/entry
consistency check is performed (the source carries a FIXME for the
missing `HeaderAndEntryMismatch` check). -/
def SourceChainBuf.put_raw (buf : SourceChainBuf) (header : Header)
    (maybe_entry : Option Entry) :
    Except SourceChainError (HeaderHash × SourceChainBuf) :=
  let header_address := hashHeader header
  match buf.keystore header with
  | none => .error .KeystoreError
  | some sig =>
    let signed_header : SignedHeaderHashed := ⟨header, sig⟩
    .ok (header_address,
      { buf with
        sequence := buf.sequence.put_header header_address
        elements := buf.elements.put signed_header maybe_entry })

/-- Commit the genesis elements (`SourceChainBuf::genesis`): a `Dna`
header, an `AgentValidationPkg` header carrying the membrane proof, and
a `Create` header carrying the agent key as its entry, chained in that
order with `header_seq` 1 and 2 on the second and third.  Modelled from
the spec: the three `Timestamp::now()` calls of the source (external
clock) become `t0`, `t0+1`, `t0+2`, the monotonically increasing
timestamps of spec section 4.2. -/
def SourceChainBuf.genesis (buf : SourceChainBuf) (dna_hash : DnaHash)
    (agent_pubkey : AgentPubKey) (membrane_proof : Option SerializedBytes)
    (t0 : Nat) : Except SourceChainError SourceChainBuf :=
  let dna_header := Header.Dna agent_pubkey ⟨t0⟩ dna_hash
  match buf.put_raw dna_header none with
  | .error e => .error e
  | .ok (dna_header_address, buf1) =>
    let agent_validation_header :=
      Header.AgentValidationPkg agent_pubkey ⟨t0 + 1⟩ 1 dna_header_address
        membrane_proof
    match buf1.put_raw agent_validation_header none with
    | .error e => .error e
    | .ok (avh_addr, buf2) =>
      let agent_header :=
        Header.Create agent_pubkey ⟨t0 + 2⟩ 2 avh_addr EntryType.AgentPubKey
          (EntryHash.ofAgent agent_pubkey)
      match buf2.put_raw agent_header (some (Entry.Agent agent_pubkey)) with
      | .error e => .error e
      | .ok (_, buf3) => .ok buf3

/-- One backward step of `SourceChainBackwardIterator::next`, iterated:
from the current cursor, look up the signed header, yield it, and move
the cursor to its `prev_header`; stop when the cursor is empty or the
lookup fails.  The fuel bounds the recursion; every chain the iterator
claims concern is traversed within `len` steps. -/
def iterBackAux (buf : SourceChainBuf) : Option HeaderHash → Nat →
    List SignedHeaderHashed
  | _, 0 => []
  | none, _ + 1 => []
  | some top, fuel + 1 =>
    match buf.get_header top with
    | none => []
    | some sh => sh :: iterBackAux buf sh.header.prevHeader fuel

/-- Backward iteration from head to genesis
(`SourceChainBuf::iter_back`), materialized as the list of yielded
signed headers. -/
def SourceChainBuf.iter_back (buf : SourceChainBuf) :
    List SignedHeaderHashed :=
  iterBackAux buf buf.chain_head buf.len

/-- Header content stored at sequence index `i`. -/
def SourceChainBuf.headerAt (buf : SourceChainBuf) (i : Nat) : Option Header :=
  (buf.sequence.get i).bind fun a => (buf.get_header a).map (·.header)

/-- Signed header stored at sequence index `i`. -/
def SourceChainBuf.shAt (buf : SourceChainBuf) (i : Nat) :
    Option SignedHeaderHashed :=
  (buf.sequence.get i).bind buf.get_header

/-- Index entry `i` resolves in the element store and its key is the
content hash of the stored header. -/
def wellIndexedAtB (buf : SourceChainBuf) (i : Nat) : Bool :=
  match buf.sequence.get i with
  | none => false
  | some a =>
    match buf.get_header a with
    | none => false
    | some sh => decide (hashHeader sh.header = a)

/-- Every indexed header is present in the element store under its
content hash. -/
def wellIndexedB (buf : SourceChainBuf) : Bool :=
  (List.range buf.len).all fun i => wellIndexedAtB buf i

/-- Contiguity at position `i ≥ 1`: the header stored at `i` links to
the hash of the header stored at `i-1` and carries sequence number `i`
(spec section 8, chain contiguity). -/
def linkedAtB (buf : SourceChainBuf) (i : Nat) : Bool :=
  match buf.headerAt i, buf.headerAt (i - 1) with
  | some h, some h' =>
    decide (h.prevHeader = some (hashHeader h')) && decide (h.headerSeq = i)
  | _, _ => false

/-- Chain contiguity: for all i in [1, len), the header at i references
the hash of the header at i-1 and has header_seq i. -/
def contiguousB (buf : SourceChainBuf) : Bool :=
  (List.range buf.len).all fun i => decide (i = 0) || linkedAtB buf i

/-- Well-formed chain: indexed headers are present under their content
hashes and the chain is contiguous. -/
def chainValid (buf : SourceChainBuf) : Prop :=
  wellIndexedB buf = true ∧ contiguousB buf = true

instance (buf : SourceChainBuf) : Decidable (chainValid buf) :=
  inferInstanceAs (Decidable (_ ∧ _))

/-! ## Chain root gatekeeper

Embedding of `src/lib.rs` (actor form, feature `gatekeep_loop`) and
`src/mutex_based.rs` (direct-mutex form).  The storage helpers
`get_source_chain_root_hash`, `rebase_headers` and `LmdbUnique::apply`
are `unimplemented!()` in the source, so they are abstracted as
operations over opaque address, store and transaction types; the
gatekeeper control flow itself is translated verbatim. -/

namespace Gatekeep

/-- Gatekeeper failure (`TransactError`). -/
inductive TransactError where
  | HeadMoved
deriving DecidableEq

/-- The storage collaborators of the gatekeeper, abstract because their
bodies are `unimplemented!()` in the source: reading the authoritative
chain root from the database, rebasing a prepared transaction's headers
from a stale root onto the current one, and applying a transaction to
durable storage. -/
structure LmdbOps (Addr Store Tx : Type) where
  get_source_chain_root_hash : Store → Addr
  rebase_headers : Tx → Addr → Addr → Tx
  applyTx : Store → Tx → Store

/-- The gatekeeper body (`ChainRootGatekeeper::gatekeep`, identical in
both source files): read the authoritative root; if it differs from the
root the writer observed (`as_at`) then either rebase (when permitted)
or abort with `HeadMoved`; finally apply the transaction to durable
storage.  Returns the call result together with the durable state. -/
def gatekeep {Addr Store Tx : Type} [DecidableEq Addr]
    (ops : LmdbOps Addr Store Tx) (st : Store) (next_write : Tx)
    (as_at : Addr) (rebasable : Bool) :
    Except TransactError Unit × Store :=
  let chain_root_hash := ops.get_source_chain_root_hash st
  if chain_root_hash ≠ as_at then
    if rebasable then
      let next_write := ops.rebase_headers next_write chain_root_hash as_at
      (Except.ok (), ops.applyTx st next_write)
    else
      (Except.error TransactError.HeadMoved, st)
  else
    (Except.ok (), ops.applyTx st next_write)

/-- The direct-mutex variant of `ChainRootHandle::try_append_chain`
(`src/mutex_based.rs`): acquire the lock and run `gatekeep`
synchronously. -/
def try_append_chain_mutex {Addr Store Tx : Type} [DecidableEq Addr]
    (ops : LmdbOps Addr Store Tx) (st : Store) (bundle : Tx)
    (valid_at : Addr) (rebasable : Bool) :
    Except TransactError Unit × Store :=
  gatekeep ops st bundle valid_at rebasable

/-- A queued gatekeeper request: `(transaction, observed_root,
rebasable)`; the reply channel is represented by the result list. -/
def Request (Addr Tx : Type) : Type := Tx × Addr × Bool

/-- The dedicated-task variant (`ChainRootGatekeeper::start_loop` in
`src/lib.rs`): one background task owns the write handle and processes
queued requests strictly in arrival order, running `gatekeep` for each
and sending the result back. -/
def start_loop {Addr Store Tx : Type} [DecidableEq Addr]
    (ops : LmdbOps Addr Store Tx) :
    Store → List (Request Addr Tx) →
    List (Except TransactError Unit) × Store
  | st, [] => ([], st)
  | st, (next_write, as_at, rebasable) :: rest =>
    let (result, st') := gatekeep ops st next_write as_at rebasable
    let (results, st'') := start_loop ops st' rest
    (result :: results, st'')

/-- The actor variant of `ChainRootHandle::try_append_chain`
(`src/lib.rs` with feature `gatekeep_loop`): enqueue the request for the
dedicated task and await the reply.  A sequence of calls is the loop
run over the arrival-ordered queue. -/
def try_append_chain_actor {Addr Store Tx : Type} [DecidableEq Addr]
    (ops : LmdbOps Addr Store Tx) (st : Store)
    (requests : List (Request Addr Tx)) :
    List (Except TransactError Unit) × Store :=
  start_loop ops st requests

/-- Sequential calls to the mutex variant over the same request list,
threading the durable state through. -/
def mutex_calls {Addr Store Tx : Type} [DecidableEq Addr]
    (ops : LmdbOps Addr Store Tx) :
    Store → List (Request Addr Tx) →
    List (Except TransactError Unit) × Store
  | st, [] => ([], st)
  | st, (bundle, valid_at, rebasable) :: rest =>
    let (result, st') := try_append_chain_mutex ops st bundle valid_at rebasable
    let (results, st'') := mutex_calls ops st' rest
    (result :: results, st'')

end Gatekeep

/-! ## Call-zome workflow

Embedding of `crates/holochain/src/core/workflow/call_zome_workflow.rs`.
The external collaborators (the ribosome, the system-validation check,
the cascade lookup, the application validation callbacks, and the
`OneshotWriter` flush) are parameters gathered in `WorkflowEnv`. -/

namespace Workflow

/-- Opaque zome-call response payload. -/
structure ZomeCallResponse where
  payload : Nat
deriving DecidableEq

/-- Ribosome errors; `ElementDeps` signals a missing validation
dependency during link validation. -/
inductive RibosomeError where
  | ElementDeps (hash : EntryHash)
deriving DecidableEq

/-- Result of running the zome function (`RibosomeResult`). -/
def RibosomeResult := Except RibosomeError ZomeCallResponse

instance : DecidableEq RibosomeResult :=
  inferInstanceAs (DecidableEq (Except RibosomeError ZomeCallResponse))

/-- Workflow errors; the source wraps `SourceChainError` and
`RibosomeError` into `WorkflowError` via `From` impls. -/
inductive WorkflowError where
  | sourceChainError (e : SourceChainError)
  | ribosomeError (e : RibosomeError)
deriving DecidableEq

instance : DecidableEq (Except WorkflowError RibosomeResult) :=
  inferInstanceAs
    (DecidableEq (Except WorkflowError (Except RibosomeError ZomeCallResponse)))

/-- Validation outcome (`app_validation_workflow::Outcome`). -/
inductive Outcome where
  | Accepted
  | Rejected (reason : String)
  | AwaitingDeps (hashes : List EntryHash)
deriving DecidableEq

/-- The workspace of one zome call.  Only the source chain is needed by
the verified control flow; the metadata and cache buffers are opaque to
it and take part only through the flush parameter. -/
structure Workspace where
  source_chain : SourceChainBuf

/-- External collaborators of the call-zome workflow.  `Durable` is the
state of the underlying storage engine.
`sys_validate_element` is modelled from the spec: the Rust
`sys_validation_workflow::sys_validate_element` is not under `src/`;
per spec section 4.4 it yields an accept/reject/defer outcome and a
failure is fatal to the batch with an invalid-commit error.
`flush_to_txn` is the `OneshotWriter` commit flushing the whole
workspace as one durable transaction. -/
structure WorkflowEnv (Durable : Type) where
  call_zome_function : Workspace → Workspace × RibosomeResult
  sys_validate_element : Element → Outcome
  retrieve_entry : EntryHash → Option Entry
  run_create_link_validation_callback : Header → Entry → Entry → Outcome
  run_delete_link_validation_callback : Header → Outcome
  run_validation_callback_direct : Element → Outcome
  flush_to_txn : Workspace → Durable → Durable

/-- Application validation of one new element, dispatched on the header
kind exactly as in `call_zome_workflow_inner`: the five system header
kinds are exempt; `CreateLink` resolves base and target through the
cascade (a missing one is an `ElementDeps` error) and runs the link
callback, whose `Rejected` becomes `InvalidLink`; `DeleteLink` runs the
delete-link callback (same error mapping); `Create`/`Update`/`Delete`
run the direct callback, whose `Rejected` becomes `InvalidCommit`; in
this local-commit context `AwaitingDeps` is always a hard
`InvalidCommit` failure carrying the missing hashes. -/
def app_validate_element {Durable : Type} (env : WorkflowEnv Durable)
    (chain_element : Element) : Except WorkflowError Unit :=
  match chain_element.1.header with
  | .Dna _ _ _ => .ok ()
  | .AgentValidationPkg _ _ _ _ _ => .ok ()
  | .OpenChain _ _ _ _ _ => .ok ()
  | .CloseChain _ _ _ _ _ => .ok ()
  | .InitZomesComplete _ _ _ _ => .ok ()
  | .CreateLink _ _ _ _ base_address target_address _ =>
    match env.retrieve_entry base_address with
    | none => .error (.ribosomeError (.ElementDeps base_address))
    | some base =>
      match env.retrieve_entry target_address with
      | none => .error (.ribosomeError (.ElementDeps target_address))
      | some target =>
        match env.run_create_link_validation_callback
            chain_element.1.header base target with
        | .Accepted => .ok ()
        | .Rejected reason =>
          .error (.sourceChainError (.InvalidLink reason))
        | .AwaitingDeps hashes =>
          .error (.sourceChainError (.InvalidCommit (.deps hashes)))
  | .DeleteLink _ _ _ _ _ _ =>
    match env.run_delete_link_validation_callback chain_element.1.header with
    | .Accepted => .ok ()
    | .Rejected reason => .error (.sourceChainError (.InvalidLink reason))
    | .AwaitingDeps hashes =>
      .error (.sourceChainError (.InvalidCommit (.deps hashes)))
  | .Create _ _ _ _ _ _ =>
    match env.run_validation_callback_direct chain_element with
    | .Accepted => .ok ()
    | .Rejected reason =>
      .error (.sourceChainError (.InvalidCommit (.text reason)))
    | .AwaitingDeps hashes =>
      .error (.sourceChainError (.InvalidCommit (.deps hashes)))
  | .Update _ _ _ _ _ _ _ =>
    match env.run_validation_callback_direct chain_element with
    | .Accepted => .ok ()
    | .Rejected reason =>
      .error (.sourceChainError (.InvalidCommit (.text reason)))
    | .AwaitingDeps hashes =>
      .error (.sourceChainError (.InvalidCommit (.deps hashes)))
  | .Delete _ _ _ _ _ _ =>
    match env.run_validation_callback_direct chain_element with
    | .Accepted => .ok ()
    | .Rejected reason =>
      .error (.sourceChainError (.InvalidCommit (.text reason)))
    | .AwaitingDeps hashes =>
      .error (.sourceChainError (.InvalidCommit (.deps hashes)))

/-- The application-validation loop over the collected new elements:
process in chain order, aborting the whole call at the first failing
element. -/
def app_validation_loop {Durable : Type} (env : WorkflowEnv Durable) :
    List Element → Except WorkflowError Unit
  | [] => .ok ()
  | el :: rest =>
    match app_validate_element env el with
    | .error e => .error e
    | .ok () => app_validation_loop env rest

/-- The system-validation collection loop (`while let Some(element) =
get_at_index(i)`): walk forward from the recorded pre-call length,
system-validating each element and collecting it for application
validation; a non-accepted outcome aborts the call with an
invalid-commit error (`invalid_call_zome_commit`, modelled from spec
section 4.4: system-validation failure is fatal with an invalid-commit
error).  The fuel dominates the number of loop entries; indexes at or
beyond the chain length always read `none`. -/
def sys_validation_loop {Durable : Type} (env : WorkflowEnv Durable)
    (workspace : Workspace) (i : Nat) :
    Nat → Except WorkflowError (List Element)
  | 0 => .ok []
  | fuel + 1 =>
    match workspace.source_chain.get_at_index i with
    | none => .ok []
    | some element =>
      match env.sys_validate_element element with
      | .Accepted =>
        match sys_validation_loop env workspace (i + 1) fuel with
        | .error e => .error e
        | .ok rest => .ok (element :: rest)
      | .Rejected reason =>
        .error (.sourceChainError (.InvalidCommit (.text reason)))
      | .AwaitingDeps hashes =>
        .error (.sourceChainError (.InvalidCommit (.deps hashes)))

/-- The inner workflow (`call_zome_workflow_inner`): record the chain
length, run the zome function against the workspace, system-validate
the newly appended elements in order, then application-validate them in
order; on success return the ribosome result. -/
def call_zome_workflow_inner {Durable : Type} (env : WorkflowEnv Durable)
    (workspace : Workspace) :
    Except WorkflowError RibosomeResult × Workspace :=
  let chain_head_start_len := workspace.source_chain.len
  let (workspace, result) := env.call_zome_function workspace
  match sys_validation_loop env workspace chain_head_start_len
      (workspace.source_chain.len - chain_head_start_len + 1) with
  | .error e => (.error e, workspace)
  | .ok to_app_validate =>
    match app_validation_loop env to_app_validate with
    | .error e => (.error e, workspace)
    | .ok () => (.ok result, workspace)

/-- The outer workflow (`call_zome_workflow`): run the inner workflow;
only when it succeeds, flush the entire workspace to durable storage as
one transaction.  The post-commit `trigger_produce_dht_ops` signal is
fire-and-forget and does not touch the state modelled here. -/
def call_zome_workflow {Durable : Type} (env : WorkflowEnv Durable)
    (workspace : Workspace) (durable : Durable) :
    Except WorkflowError RibosomeResult × Durable :=
  match call_zome_workflow_inner env workspace with
  | (.error e, _) => (.error e, durable)
  | (.ok result, workspace') => (.ok result, env.flush_to_txn workspace' durable)

end Workflow

/-! ## Concrete instances

Closed values used to evaluate the definitions above on concrete
inputs. -/

/-- A signing capability that signs every header. -/
def ksTotal : Header → Option Signature := fun _ => some ⟨0⟩

/-- An empty element store. -/
def emptyElementBuf : ElementBuf := ⟨fun _ => none, fun _ => none⟩

/-- An empty source chain. -/
def emptyBuf : SourceChainBuf := ⟨emptyElementBuf, ⟨[]⟩, ksTotal⟩

/-- A genesis-style Dna header. -/
def hDna0 : Header := .Dna ⟨0⟩ ⟨0⟩ ⟨0⟩

/-- A Create header that links onto `hDna0` with the correct sequence
number 1. -/
def hCreate1 : Header :=
  .Create ⟨0⟩ ⟨1⟩ 1 hDna0 (.App 0) (hashEntry (.App 0))

/-- A Create header whose `prev_header` is `hDna0` but whose
`header_seq` is 0 instead of 1; `put_raw` accepts it unchecked. -/
def hBadSeq : Header :=
  .Create ⟨0⟩ ⟨1⟩ 0 hDna0 (.App 0) (hashEntry (.App 0))

/-- A chain reachable by two `put_raw` calls, the second header carrying
the wrong sequence number. -/
def badSeqChain : Except SourceChainError SourceChainBuf := do
  let (_, b1) ← emptyBuf.put_raw hDna0 none
  let (_, b2) ← b1.put_raw hBadSeq none
  return b2

/-- One-element chain holding only `hDna0`. -/
def bufDna : SourceChainBuf :=
  ⟨⟨fun k => if k = hDna0 then some (⟨hDna0, ⟨0⟩⟩, none) else none,
    fun _ => none⟩, ⟨[hDna0]⟩, ksTotal⟩

/-- The chain `bufDna` extended by `hCreate1` through `put_raw`. -/
def bufDnaCreate : SourceChainBuf :=
  match bufDna.put_raw hCreate1 none with
  | .ok p => p.2
  | .error _ => bufDna

/-- A header never written to any store. -/
def hDangling : Header := .Dna ⟨7⟩ ⟨7⟩ ⟨7⟩

/-- A header whose `prev_header` points at the absent `hDangling`. -/
def hOrphan : Header :=
  .Create ⟨0⟩ ⟨0⟩ 0 hDangling (.App 0) (hashEntry (.App 0))

/-- One-element chain whose only header dangles: contiguity is vacuous
and the indexed header is present, yet the chain does not start at a
header without `prev_header`. -/
def bufOrphan : SourceChainBuf :=
  ⟨⟨fun k => if k = hOrphan then some (⟨hOrphan, ⟨0⟩⟩, none) else none,
    fun _ => none⟩, ⟨[hOrphan]⟩, ksTotal⟩

/-- The chain produced by `genesis` on the empty chain. -/
def bufGen3 : SourceChainBuf :=
  match emptyBuf.genesis ⟨0⟩ ⟨0⟩ none 0 with
  | .ok b => b
  | .error _ => emptyBuf

/-- Result of staging a Dna header together with an unrelated entry, a
pair no header/entry consistency check would admit. -/
def bufMismatch : SourceChainBuf :=
  match emptyBuf.put_raw hDna0 (some (.App 3)) with
  | .ok p => p.2
  | .error _ => emptyBuf

/-- Concrete gatekeeper storage: the store is the list of applied
transactions, the authoritative root is its length, rebasing mixes the
two roots into the transaction so its effect is observable. -/
def opsNat : Gatekeep.LmdbOps Nat (List Nat) Nat where
  get_source_chain_root_hash := List.length
  rebase_headers := fun tx a b => tx + 10 * a + 100 * b
  applyTx := fun st tx => tx :: st

/-- An exempt element (Dna header). -/
def elDna : Element := (⟨hDna0, ⟨0⟩⟩, none)

/-- An element subject to the direct entry-validation callback. -/
def elCreate : Element := (⟨hCreate1, ⟨0⟩⟩, none)

/-- A workspace whose chain already contains the `elCreate` element. -/
def wsCreate : Workflow.Workspace := ⟨bufDnaCreate⟩

/-- Concrete workflow environment: the zome call appends nothing, both
validation phases reject exactly `elCreate`, the cascade always
resolves, and flushing increments the durable counter. -/
def envNat : Workflow.WorkflowEnv Nat where
  call_zome_function := fun ws => (ws, .ok ⟨0⟩)
  sys_validate_element := fun el =>
    if el = elCreate then .Rejected "sys" else .Accepted
  retrieve_entry := fun _ => some (.App 0)
  run_create_link_validation_callback := fun _ _ _ => .Accepted
  run_delete_link_validation_callback := fun _ => .Accepted
  run_validation_callback_direct := fun el =>
    if el = elCreate then .Rejected "app" else .Accepted
  flush_to_txn := fun _ d => d + 1

/-- Like `envNat` but the zome call swaps in the workspace containing
the element both validation phases reject. -/
def envNat2 : Workflow.WorkflowEnv Nat :=
  { envNat with call_zome_function := fun _ => (wsCreate, .ok ⟨0⟩) }

/-! ## Theorems -/

lemma all_range_iff (n : Nat) (f : Nat → Bool) :
    ((List.range n).all f = true) ↔ ∀ i, i < n → f i = true := by
  simp [List.all_eq_true, List.mem_range]

lemma hashHeader_id (h : Header) : hashHeader h = h := rfl

lemma wellIndexedB_iff (buf : SourceChainBuf) :
    wellIndexedB buf = true ↔
      ∀ i, i < buf.len → wellIndexedAtB buf i = true :=
  all_range_iff _ _

lemma contiguousB_iff (buf : SourceChainBuf) :
    contiguousB buf = true ↔
      ∀ i, i < buf.len → 1 ≤ i → linkedAtB buf i = true := by
  rw [contiguousB, all_range_iff]
  constructor
  · intro h i hi h1
    rcases Bool.or_eq_true_iff.mp (h i hi) with h0 | hl
    · have := of_decide_eq_true h0
      omega
    · exact hl
  · intro h i hi
    by_cases h0 : i = 0
    · subst h0
      simp
    · have := h i hi (by omega)
      simp [this]

lemma wellIndexedAt_spec (buf : SourceChainBuf) (i : Nat)
    (h : wellIndexedAtB buf i = true) :
    ∃ a sh, buf.sequence.get i = some a ∧ buf.get_header a = some sh ∧
      sh.header = a := by
  unfold wellIndexedAtB at h
  split at h
  · exact absurd h (by simp)
  next a heq =>
    split at h
    · exact absurd h (by simp)
    next sh heq2 =>
      exact ⟨a, sh, heq, heq2, of_decide_eq_true h⟩

lemma linkedAt_spec (buf : SourceChainBuf) (i : Nat)
    (h : linkedAtB buf i = true) :
    ∃ h₁ h₀, buf.headerAt i = some h₁ ∧ buf.headerAt (i - 1) = some h₀ ∧
      h₁.prevHeader = some h₀ ∧ h₁.headerSeq = i := by
  unfold linkedAtB at h
  split at h
  next h₁ h₀ e1 e0 =>
    rcases Bool.and_eq_true_iff.mp h with ⟨hp, hs⟩
    exact ⟨h₁, h₀, e1, e0, of_decide_eq_true hp, of_decide_eq_true hs⟩
  all_goals exact absurd h (by simp)

lemma linkedAtB_of (buf : SourceChainBuf) (i : Nat) (h₁ h₀ : Header)
    (e1 : buf.headerAt i = some h₁) (e0 : buf.headerAt (i - 1) = some h₀)
    (hp : h₁.prevHeader = some h₀) (hs : h₁.headerSeq = i) :
    linkedAtB buf i = true := by
  unfold linkedAtB
  rw [e1, e0]
  simp [hp, hs, hashHeader]

lemma put_raw_ok (buf : SourceChainBuf) (header : Header)
    (maybe_entry : Option Entry) (sig : Signature)
    (hk : buf.keystore header = some sig) :
    buf.put_raw header maybe_entry = .ok (hashHeader header,
      { buf with
        sequence := buf.sequence.put_header (hashHeader header)
        elements := buf.elements.put ⟨header, sig⟩ maybe_entry }) := by
  simp [SourceChainBuf.put_raw, hk]

lemma put_raw_shape (buf : SourceChainBuf) (header : Header)
    (maybe_entry : Option Entry) (addr : HeaderHash) (buf' : SourceChainBuf)
    (hp : buf.put_raw header maybe_entry = .ok (addr, buf')) :
    ∃ sig, buf.keystore header = some sig ∧ addr = hashHeader header ∧
      buf' = { buf with
        sequence := buf.sequence.put_header (hashHeader header)
        elements := buf.elements.put ⟨header, sig⟩ maybe_entry } := by
  cases hk : buf.keystore header with
  | none =>
    simp [SourceChainBuf.put_raw, hk] at hp
  | some sig =>
    rw [put_raw_ok buf header maybe_entry sig hk] at hp
    injection hp with hpair
    injection hpair with h1 h2
    exact ⟨sig, rfl, h1.symm, h2.symm⟩

lemma get_header_mk (eb : ElementBuf) (sq : ChainSequenceBuf)
    (ks : Header → Option Signature) (k : HeaderHash) :
    (⟨eb, sq, ks⟩ : SourceChainBuf).get_header k =
      (eb.elements k).map (·.1) := rfl

lemma get_header_put (eb : ElementBuf) (sq sq' : ChainSequenceBuf)
    (ks : Header → Option Signature) (sh : SignedHeaderHashed)
    (me : Option Entry) (k : HeaderHash) :
    (⟨eb.put sh me, sq', ks⟩ : SourceChainBuf).get_header k =
      if k = sh.header then some sh
      else (⟨eb, sq, ks⟩ : SourceChainBuf).get_header k := by
  rw [get_header_mk, get_header_mk]
  unfold ElementBuf.put SignedHeaderHashed.header_address
  by_cases h : k = sh.header <;> simp [h, hashHeader]

lemma seq_get_extend (sq : ChainSequenceBuf) (x : HeaderHash) (i : Nat)
    (hi : i < sq.len) :
    (sq.put_header x).get i = sq.get i := by
  unfold ChainSequenceBuf.put_header ChainSequenceBuf.get
  exact List.get?_append hi

lemma seq_get_extend_last (sq : ChainSequenceBuf) (x : HeaderHash) :
    (sq.put_header x).get sq.len = some x := by
  unfold ChainSequenceBuf.put_header ChainSequenceBuf.get ChainSequenceBuf.len
  exact List.get?_concat_length _ _

lemma chain_head_get (sq : ChainSequenceBuf) :
    sq.chain_head = sq.get (sq.len - 1) := by
  unfold ChainSequenceBuf.chain_head ChainSequenceBuf.get ChainSequenceBuf.len
  exact List.getLast?_eq_get? _

/-- Core preservation step: extending a well-formed chain with a signed
header whose `prev_header` is the current head and whose `header_seq`
is the current length keeps the chain well-formed. -/
lemma chainValid_extend (eb : ElementBuf) (sq : ChainSequenceBuf)
    (ks : Header → Option Signature) (header : Header) (sig : Signature)
    (me : Option Entry)
    (hv : chainValid ⟨eb, sq, ks⟩)
    (hprev : header.prevHeader = sq.chain_head)
    (hseq : header.headerSeq = sq.len) :
    chainValid ⟨eb.put ⟨header, sig⟩ me, sq.put_header header, ks⟩ := by
  obtain ⟨hwi, hcont⟩ := hv
  rw [wellIndexedB_iff] at hwi
  rw [contiguousB_iff] at hcont
  have hlenA : (⟨eb, sq, ks⟩ : SourceChainBuf).len = sq.len := rfl
  rw [hlenA] at hwi hcont
  have hlenB : (⟨eb.put ⟨header, sig⟩ me, sq.put_header header,
      ks⟩ : SourceChainBuf).len = sq.len + 1 := by
    simp [SourceChainBuf.len, ChainSequenceBuf.len, ChainSequenceBuf.put_header]
  have hgp := get_header_put eb sq (sq.put_header header) ks ⟨header, sig⟩ me
  have hAt : ∀ i, i < sq.len → ∃ a, sq.get i = some a ∧
      (⟨eb, sq, ks⟩ : SourceChainBuf).headerAt i = some a ∧
      (⟨eb.put ⟨header, sig⟩ me, sq.put_header header, ks⟩ :
        SourceChainBuf).headerAt i = some a := by
    intro i hi
    obtain ⟨a, sh, h1, h2, h3⟩ := wellIndexedAt_spec _ i (hwi i hi)
    refine ⟨a, h1, ?_, ?_⟩
    · unfold SourceChainBuf.headerAt
      rw [show (⟨eb, sq, ks⟩ : SourceChainBuf).sequence.get i = sq.get i from rfl,
        h1]
      simp [h2, h3]
    · unfold SourceChainBuf.headerAt
      rw [show (⟨eb.put ⟨header, sig⟩ me, sq.put_header header,
          ks⟩ : SourceChainBuf).sequence.get i =
          (sq.put_header header).get i from rfl,
        seq_get_extend sq _ i hi, h1]
      by_cases hcase : a = header
      · simp [hgp, hcase]
      · simp [hgp, hcase, h2, h3]
  have hTop : (⟨eb.put ⟨header, sig⟩ me, sq.put_header header,
      ks⟩ : SourceChainBuf).headerAt sq.len = some header := by
    unfold SourceChainBuf.headerAt
    rw [show (⟨eb.put ⟨header, sig⟩ me, sq.put_header header,
        ks⟩ : SourceChainBuf).sequence.get sq.len =
        (sq.put_header header).get sq.len from rfl,
      seq_get_extend_last sq _]
    simp [hgp]
  constructor
  · rw [wellIndexedB_iff, hlenB]
    intro i hi
    rcases Nat.lt_or_ge i sq.len with hlt | hge
    · obtain ⟨a, sh, h1, h2, h3⟩ := wellIndexedAt_spec _ i (hwi i hlt)
      unfold wellIndexedAtB
      rw [show (⟨eb.put ⟨header, sig⟩ me, sq.put_header header,
          ks⟩ : SourceChainBuf).sequence.get i =
          (sq.put_header header).get i from rfl,
        seq_get_extend sq _ i hlt, h1]
      by_cases hcase : a = header
      · simp [hgp, hcase, hashHeader]
      · simp [hgp, hcase, h2, h3, hashHeader]
    · have hieq : i = sq.len := by omega
      subst hieq
      unfold wellIndexedAtB
      rw [show (⟨eb.put ⟨header, sig⟩ me, sq.put_header header,
          ks⟩ : SourceChainBuf).sequence.get sq.len =
          (sq.put_header header).get sq.len from rfl,
        seq_get_extend_last sq _]
      simp [hgp, hashHeader]
  · rw [contiguousB_iff, hlenB]
    intro i hi h1
    rcases Nat.lt_or_ge i sq.len with hlt | hge
    · obtain ⟨g₁, g₀, e1, e0, hp', hs'⟩ := linkedAt_spec _ i (hcont i hlt h1)
      obtain ⟨a, a1, a2, a3⟩ := hAt i hlt
      obtain ⟨b, b1, b2, b3⟩ := hAt (i - 1) (by omega)
      have ha : a = g₁ := Option.some.inj (a2.symm.trans e1)
      have hb : b = g₀ := Option.some.inj (b2.symm.trans e0)
      exact linkedAtB_of _ i g₁ g₀ (ha ▸ a3) (hb ▸ b3) hp' hs'
    · have hieq : i = sq.len := by omega
      subst hieq
      obtain ⟨b, b1, b2, b3⟩ := hAt (sq.len - 1) (by omega)
      have hhead : sq.chain_head = some b := by
        rw [chain_head_get]
        exact b1
      refine linkedAtB_of _ sq.len header b hTop b3 ?_ hseq
      rw [hprev, hhead]

lemma put_raw_err (buf : SourceChainBuf) (header : Header)
    (maybe_entry : Option Entry) (hk : buf.keystore header = none) :
    buf.put_raw header maybe_entry = .error .KeystoreError := by
  simp [SourceChainBuf.put_raw, hk]

lemma chainValid_nil (buf : SourceChainBuf) (h : buf.sequence.seq = []) :
    chainValid buf := by
  have hlen : buf.len = 0 := by
    simp [SourceChainBuf.len, ChainSequenceBuf.len, h]
  constructor
  · rw [wellIndexedB_iff, hlen]
    intro i hi
    exact absurd hi (Nat.not_lt_zero i)
  · rw [contiguousB_iff, hlen]
    intro i hi
    exact absurd hi (Nat.not_lt_zero i)

/-- Preservation through `put_raw`: appending a header that links onto
the current head with the next sequence number keeps the chain
well-formed. -/
lemma chainValid_put_raw (buf : SourceChainBuf) (header : Header)
    (maybe_entry : Option Entry) (addr : HeaderHash) (buf' : SourceChainBuf)
    (hv : chainValid buf)
    (hprev : header.prevHeader = buf.chain_head)
    (hseq : header.headerSeq = buf.len)
    (hp : buf.put_raw header maybe_entry = .ok (addr, buf')) :
    chainValid buf' := by
  obtain ⟨sig, hk, haddr, hbuf'⟩ := put_raw_shape buf header maybe_entry addr buf' hp
  subst hbuf'
  exact chainValid_extend buf.elements buf.sequence buf.keystore header sig
    maybe_entry hv hprev hseq

/-- Structure of a genesis-initialized chain: full decomposition of
`SourceChainBuf.genesis` run on an empty chain. -/
lemma genesis_shape (buf : SourceChainBuf) (dna_hash : DnaHash)
    (agent : AgentPubKey) (mp : Option SerializedBytes) (t0 : Nat)
    (buf' : SourceChainBuf)
    (hempty : buf.sequence.seq = [])
    (hg : buf.genesis dna_hash agent mp t0 = .ok buf') :
    buf'.len = 3 ∧
    buf'.headerAt 0 = some (Header.Dna agent ⟨t0⟩ dna_hash) ∧
    buf'.headerAt 1 = some (Header.AgentValidationPkg agent ⟨t0 + 1⟩ 1
      (hashHeader (Header.Dna agent ⟨t0⟩ dna_hash)) mp) ∧
    buf'.headerAt 2 = some (Header.Create agent ⟨t0 + 2⟩ 2
      (hashHeader (Header.AgentValidationPkg agent ⟨t0 + 1⟩ 1
        (hashHeader (Header.Dna agent ⟨t0⟩ dna_hash)) mp))
      EntryType.AgentPubKey (EntryHash.ofAgent agent)) ∧
    (buf'.get_at_index 2).map (fun el => el.2) =
      some (some (Entry.Agent agent)) ∧
    chainValid buf' := by
  simp only [SourceChainBuf.genesis] at hg
  split at hg
  · simp at hg
  next dna_addr buf1 heq1 =>
    obtain ⟨sig1, hk1, haddr1, hbuf1⟩ := put_raw_shape _ _ _ _ _ heq1
    subst haddr1
    subst hbuf1
    split at hg
    · simp at hg
    next avh_addr buf2 heq2 =>
      obtain ⟨sig2, hk2, haddr2, hbuf2⟩ := put_raw_shape _ _ _ _ _ heq2
      subst haddr2
      subst hbuf2
      split at hg
      · simp at hg
      next c_addr buf3 heq3 =>
        obtain ⟨sig3, hk3, haddr3, hbuf3⟩ := put_raw_shape _ _ _ _ _ heq3
        subst haddr3
        subst hbuf3
        injection hg with hbuf'
        subst hbuf'
        refine ⟨?_, ?_, ?_, ?_, ?_, ?_⟩
        · simp [SourceChainBuf.len, ChainSequenceBuf.len,
            ChainSequenceBuf.put_header, hempty]
        · simp [SourceChainBuf.headerAt, SourceChainBuf.get_header,
            ElementBuf.put, SignedHeaderHashed.header_address, hashHeader,
            ChainSequenceBuf.put_header, ChainSequenceBuf.get, hempty]
        · simp [SourceChainBuf.headerAt, SourceChainBuf.get_header,
            ElementBuf.put, SignedHeaderHashed.header_address, hashHeader,
            ChainSequenceBuf.put_header, ChainSequenceBuf.get, hempty]
        · simp [SourceChainBuf.headerAt, SourceChainBuf.get_header,
            ElementBuf.put, SignedHeaderHashed.header_address, hashHeader,
            ChainSequenceBuf.put_header, ChainSequenceBuf.get, hempty]
        · simp [SourceChainBuf.get_at_index, SourceChainBuf.get_element,
            ElementBuf.put, SignedHeaderHashed.header_address, hashHeader,
            ChainSequenceBuf.put_header, ChainSequenceBuf.get, hempty]
        · have hv0 : chainValid buf := chainValid_nil buf hempty
          have hv1 := chainValid_put_raw buf _ none _ _ hv0
            (by simp [Header.prevHeader, SourceChainBuf.chain_head,
              ChainSequenceBuf.chain_head, hempty])
            (by simp [Header.headerSeq, SourceChainBuf.len,
              ChainSequenceBuf.len, hempty])
            heq1
          have hv2 := chainValid_put_raw _ _ none _ _ hv1
            (by simp [Header.prevHeader, SourceChainBuf.chain_head,
              ChainSequenceBuf.chain_head, ChainSequenceBuf.put_header,
              hempty])
            (by simp [Header.headerSeq, SourceChainBuf.len,
              ChainSequenceBuf.len, ChainSequenceBuf.put_header, hempty])
            heq2
          exact chainValid_put_raw _ _ _ _ _ hv2
            (by simp [Header.prevHeader, SourceChainBuf.chain_head,
              ChainSequenceBuf.chain_head, ChainSequenceBuf.put_header,
              hempty])
            (by simp [Header.headerSeq, SourceChainBuf.len,
              ChainSequenceBuf.len, ChainSequenceBuf.put_header, hempty])
            heq3

/-- C3 (amended): chain well-formedness — contiguity together with
content-addressed presence of the indexed headers — is established by
`genesis` on an empty chain and is preserved by `put_raw` exactly when
the appended header links onto the current head (its `prev_header` is
the chain head and its `header_seq` is the current length).  `put_raw`
itself checks none of this, so the invariant is conditional on the
caller supplying a linking header. -/
theorem spec_C3 :
    (∀ (buf : SourceChainBuf) (header : Header) (maybe_entry : Option Entry)
      (addr : HeaderHash) (buf' : SourceChainBuf),
      chainValid buf →
      header.prevHeader = buf.chain_head →
      header.headerSeq = buf.len →
      buf.put_raw header maybe_entry = .ok (addr, buf') →
      chainValid buf') ∧
    (∀ (buf : SourceChainBuf) (dna_hash : DnaHash) (agent : AgentPubKey)
      (mp : Option SerializedBytes) (t0 : Nat) (buf' : SourceChainBuf),
      buf.sequence.seq = [] →
      buf.genesis dna_hash agent mp t0 = .ok buf' →
      chainValid buf') :=
  ⟨fun buf header me addr buf' hv hp hs hput =>
     chainValid_put_raw buf header me addr buf' hv hp hs hput,
   fun buf dna agent mp t0 buf' hempty hg =>
     (genesis_shape buf dna agent mp t0 buf' hempty hg).2.2.2.2.2⟩

/-- Counterexample to C3 as stated: a chain reachable through two
public `put_raw` calls, whose second header carries sequence number 0
instead of 1, violates contiguity — `put_raw` accepted it unchecked, so
contiguity is not an invariant of every reachable chain. -/
theorem spec_C3_counterexample :
    badSeqChain.map (fun b => (b.len, contiguousB b)) = .ok (2, false) := by
  rfl

/-- Witness for the amended C3 on a concrete conforming append. -/
theorem spec_C3_witness : chainValid bufDnaCreate :=
  spec_C3.1 bufDna hCreate1 none (hashHeader hCreate1) bufDnaCreate
    (by decide) (by decide) (by decide) (by rfl)

/-- C4: `genesis` on an empty chain appends exactly 3 elements whose
headers are, in order, a `Dna`, an `AgentValidationPkg` carrying the
supplied membrane proof, and a `Create` of entry type `AgentPubKey`
carrying `Entry::Agent(author)`; their sequence numbers are 0, 1, 2,
each later header's `prev_header` is the hash of the one before it, and
the timestamps increase monotonically (`t0`, `t0+1`, `t0+2`). -/
theorem spec_C4 (buf : SourceChainBuf) (dna_hash : DnaHash)
    (agent : AgentPubKey) (mp : Option SerializedBytes) (t0 : Nat)
    (buf' : SourceChainBuf)
    (hempty : buf.sequence.seq = [])
    (hg : buf.genesis dna_hash agent mp t0 = .ok buf') :
    buf'.len = 3 ∧
    buf'.headerAt 0 = some (Header.Dna agent ⟨t0⟩ dna_hash) ∧
    buf'.headerAt 1 = some (Header.AgentValidationPkg agent ⟨t0 + 1⟩ 1
      (hashHeader (Header.Dna agent ⟨t0⟩ dna_hash)) mp) ∧
    buf'.headerAt 2 = some (Header.Create agent ⟨t0 + 2⟩ 2
      (hashHeader (Header.AgentValidationPkg agent ⟨t0 + 1⟩ 1
        (hashHeader (Header.Dna agent ⟨t0⟩ dna_hash)) mp))
      EntryType.AgentPubKey (EntryHash.ofAgent agent)) ∧
    (buf'.get_at_index 2).map (fun el => el.2) =
      some (some (Entry.Agent agent)) := by
  obtain ⟨h1, h2, h3, h4, h5, _⟩ :=
    genesis_shape buf dna_hash agent mp t0 buf' hempty hg
  exact ⟨h1, h2, h3, h4, h5⟩

/-- Witness for C4 on a concrete genesis run. -/
theorem spec_C4_witness :
    bufGen3.len = 3 ∧
    bufGen3.headerAt 0 = some (Header.Dna ⟨0⟩ ⟨0⟩ ⟨0⟩) ∧
    bufGen3.headerAt 1 = some (Header.AgentValidationPkg ⟨0⟩ ⟨0 + 1⟩ 1
      (hashHeader (Header.Dna ⟨0⟩ ⟨0⟩ ⟨0⟩)) none) ∧
    bufGen3.headerAt 2 = some (Header.Create ⟨0⟩ ⟨0 + 2⟩ 2
      (hashHeader (Header.AgentValidationPkg ⟨0⟩ ⟨0 + 1⟩ 1
        (hashHeader (Header.Dna ⟨0⟩ ⟨0⟩ ⟨0⟩)) none))
      EntryType.AgentPubKey (EntryHash.ofAgent ⟨0⟩)) ∧
    (bufGen3.get_at_index 2).map (fun el => el.2) =
      some (some (Entry.Agent ⟨0⟩)) :=
  spec_C4 emptyBuf ⟨0⟩ ⟨0⟩ none 0 bufGen3 (by rfl) (by rfl)

lemma headerAt_of (buf : SourceChainBuf) (i : Nat) (a : HeaderHash)
    (sh : SignedHeaderHashed) (h1 : buf.sequence.get i = some a)
    (h2 : buf.get_header a = some sh) :
    buf.headerAt i = some sh.header := by
  unfold SourceChainBuf.headerAt
  rw [h1]
  simp [h2]

lemma headerSeq_zero_of_prev_none (h : Header)
    (hp : h.prevHeader = none) : h.headerSeq = 0 := by
  cases h <;> simp_all [Header.prevHeader, Header.headerSeq]

lemma isDna_of_prev_none (h : Header) (hp : h.prevHeader = none) :
    ∃ au ts dh, h = .Dna au ts dh := by
  cases h with
  | Dna au ts dh => exact ⟨au, ts, dh, rfl⟩
  | _ => simp [Header.prevHeader] at hp

lemma iterBackAux_none (buf : SourceChainBuf) (fuel : Nat) :
    iterBackAux buf none fuel = [] := by
  cases fuel <;> rfl

/-- Characterization of the backward iterator run from the address
indexed at position `k` of a well-formed chain whose first header has
no predecessor: it yields exactly `k+1` signed headers, the `j`-th
yielded one being the header stored at index `k - j`. -/
lemma iterBackAux_spec (buf : SourceChainBuf)
    (hwi : ∀ i, i < buf.len → wellIndexedAtB buf i = true)
    (hcont : ∀ i, i < buf.len → 1 ≤ i → linkedAtB buf i = true)
    (hfirst : (buf.headerAt 0).bind Header.prevHeader = none) :
    ∀ k, k < buf.len → ∀ fuel, k + 1 ≤ fuel →
      (iterBackAux buf (buf.sequence.get k) fuel).length = k + 1 ∧
      (∀ j, j ≤ k →
        ((iterBackAux buf (buf.sequence.get k) fuel).get? j).map (·.header) =
          buf.headerAt (k - j)) := by
  intro k
  induction k with
  | zero =>
    intro hk fuel hfuel
    obtain ⟨a, sh, h1, h2, h3⟩ := wellIndexedAt_spec buf 0 (hwi 0 hk)
    have hAt0 := headerAt_of buf 0 a sh h1 h2
    have hprev0 : sh.header.prevHeader = none := by
      rw [hAt0] at hfirst
      simpa using hfirst
    cases fuel with
    | zero => omega
    | succ f =>
      rw [h1]
      constructor
      · simp [iterBackAux, h2, hprev0, iterBackAux_none]
      · intro j hj
        have hj0 : j = 0 := by omega
        subst hj0
        simp [iterBackAux, h2, hprev0, iterBackAux_none, hAt0]
  | succ k ih =>
    intro hk fuel hfuel
    obtain ⟨a, sh, h1, h2, h3⟩ := wellIndexedAt_spec buf (k + 1) (hwi (k + 1) hk)
    obtain ⟨b, shb, g1, g2, g3⟩ := wellIndexedAt_spec buf k (hwi k (by omega))
    obtain ⟨h₁, h₀, e1, e0, ep, es⟩ :=
      linkedAt_spec buf (k + 1) (hcont (k + 1) hk (by omega))
    have hAtk1 := headerAt_of buf (k + 1) a sh h1 h2
    have hAtk := headerAt_of buf k b shb g1 g2
    have ha : sh.header = h₁ := Option.some.inj (hAtk1.symm.trans e1)
    have e0' : buf.headerAt k = some h₀ := by simpa using e0
    have hb : shb.header = h₀ := Option.some.inj (hAtk.symm.trans e0')
    have hprev : sh.header.prevHeader = some b := by
      rw [ha, ep, ← hb, g3]
    cases fuel with
    | zero => omega
    | succ f =>
      have ihf := ih (by omega) f (by omega)
      rw [h1]
      have hred : iterBackAux buf (some a) (f + 1) =
          sh :: iterBackAux buf (buf.sequence.get k) f := by
        simp only [iterBackAux, h2]
        rw [hprev, ← g1]
      constructor
      · rw [hred]
        simp [ihf.1]
      · intro j hj
        rw [hred]
        cases j with
        | zero =>
          simpa using hAtk1.symm
        | succ j' =>
          have := ihf.2 j' (by omega)
          simpa using this

/-- C6 (amended): over every well-formed chain of N elements whose
first header has no `prev_header` (the genesis Dna header), `iter_back`
yields exactly N signed headers starting from the chain head, the j-th
yielded item being the header stored at index N-1-j; each next yielded
item is the previous item's `prev_header`, sequence numbers strictly
decrease along the iteration, and the last yielded item is the header
with no `prev_header` — a Dna header with sequence number 0, at which
the iteration terminates. -/
theorem spec_C6 (buf : SourceChainBuf)
    (hv : chainValid buf)
    (hfirst : (buf.headerAt 0).bind Header.prevHeader = none) :
    buf.iter_back.length = buf.len ∧
    (∀ j, j < buf.len →
      (buf.iter_back.get? j).map (·.header) =
        buf.headerAt (buf.len - 1 - j)) ∧
    (∀ j sh sh', buf.iter_back.get? j = some sh →
      buf.iter_back.get? (j + 1) = some sh' →
      sh.header.prevHeader = some (hashHeader sh'.header) ∧
      sh'.header.headerSeq + 1 = sh.header.headerSeq) ∧
    (∀ shl, buf.iter_back.getLast? = some shl →
      shl.header.prevHeader = none ∧ shl.header.headerSeq = 0 ∧
      ∃ au ts dh, shl.header = .Dna au ts dh) := by
  obtain ⟨hwiB, hcontB⟩ := hv
  rw [wellIndexedB_iff] at hwiB
  rw [contiguousB_iff] at hcontB
  have hseqAt : ∀ i, i < buf.len → ∀ h, buf.headerAt i = some h →
      h.headerSeq = i := by
    intro i hi h hh
    rcases Nat.eq_zero_or_pos i with h0 | hpos
    · subst h0
      rw [hh] at hfirst
      simp only [Option.some_bind] at hfirst
      exact headerSeq_zero_of_prev_none h hfirst
    · obtain ⟨h₁, h₀, e1, e0, ep, es⟩ := linkedAt_spec buf i (hcontB i hi hpos)
      have hh1 : h = h₁ := Option.some.inj (hh.symm.trans e1)
      rw [hh1, es]
  cases hlen : buf.len with
  | zero =>
    have hhead : buf.chain_head = none := by
      have hl : buf.sequence.seq.length = 0 := hlen
      unfold SourceChainBuf.chain_head ChainSequenceBuf.chain_head
      simp [List.length_eq_zero.mp hl]
    have hempty : buf.iter_back = [] := by
      unfold SourceChainBuf.iter_back
      rw [hhead, iterBackAux_none]
    refine ⟨by simp [hempty, hlen], ?_, ?_, ?_⟩
    · intro j hj
      omega
    · intro j sh sh' hsh _
      rw [hempty] at hsh
      simp at hsh
    · intro shl hl
      rw [hempty] at hl
      simp at hl
  | succ n =>
    have hslen : buf.sequence.len = n + 1 := hlen
    have hcur : buf.chain_head = buf.sequence.get n := by
      rw [show buf.chain_head = buf.sequence.chain_head from rfl,
        chain_head_get buf.sequence, hslen]
      simp
    have hiter : buf.iter_back = iterBackAux buf (buf.sequence.get n) (n + 1) := by
      unfold SourceChainBuf.iter_back
      rw [hcur, hlen]
    obtain ⟨hlength, hget⟩ :=
      iterBackAux_spec buf hwiB hcontB hfirst n (by omega) (n + 1) (by omega)
    have hlen_iter : buf.iter_back.length = n + 1 := by
      rw [hiter]
      exact hlength
    refine ⟨by rw [hlen_iter], ?_, ?_, ?_⟩
    · intro j hj
      rw [hiter]
      have := hget j (by omega)
      simpa using this
    · intro j sh sh' hsh hsh'
      have hlt' : j + 1 < buf.iter_back.length := by
        by_contra hcon
        rw [List.get?_eq_none.mpr (by omega)] at hsh'
        cases hsh'
      have hjn : j + 1 ≤ n := by omega
      have q1 := hget j (by omega)
      have q2 := hget (j + 1) (by omega)
      rw [← hiter] at q1 q2
      rw [hsh] at q1
      rw [hsh'] at q2
      simp only [Option.map_some'] at q1 q2
      have hi1 : 1 ≤ n - j := by omega
      have hilt : n - j < buf.len := by omega
      obtain ⟨h₁, h₀, e1, e0, ep, es⟩ :=
        linkedAt_spec buf (n - j) (hcontB (n - j) hilt hi1)
      have hidx : n - (j + 1) = n - j - 1 := by omega
      rw [hidx] at q2
      have hsh1 : sh.header = h₁ := Option.some.inj (q1.trans e1)
      have hsh2 : sh'.header = h₀ := Option.some.inj (q2.trans e0)
      constructor
      · rw [hsh1, ep, hsh2]
        rfl
      · have hs1 : sh.header.headerSeq = n - j := by rw [hsh1, es]
        have hs2 : sh'.header.headerSeq = n - j - 1 := by
          apply hseqAt (n - j - 1) (by omega)
          exact q2.symm
        omega
    · intro shl hl
      rw [List.getLast?_eq_get?, hlen_iter] at hl
      have hl' : buf.iter_back.get? n = some shl := by simpa using hl
      have q := hget n (le_refl n)
      rw [← hiter] at q
      rw [hl'] at q
      simp only [Option.map_some', Nat.sub_self] at q
      have q0 : buf.headerAt 0 = some shl.header := q.symm
      have hpn : shl.header.prevHeader = none := by
        rw [q0] at hfirst
        simpa using hfirst
      exact ⟨hpn, headerSeq_zero_of_prev_none _ hpn, isDna_of_prev_none _ hpn⟩

/-- Counterexample to C6 as stated: a one-element chain satisfying
contiguity (vacuously) with its indexed header present, whose header's
`prev_header` points at an absent header.  The iterator still yields
exactly N items, but it terminates because the lookup of the dangling
predecessor fails, not by reaching a header without `prev_header`: the
last yielded item has a `prev_header`. -/
theorem spec_C6_counterexample :
    chainValid bufOrphan ∧
    bufOrphan.iter_back.length = bufOrphan.len ∧
    (bufOrphan.iter_back.getLast?).map (fun sh => sh.header.prevHeader) =
      some (some (hashHeader hDangling)) :=
  ⟨by decide, by rfl, by rfl⟩

/-- Witness for the amended C6 on a concrete one-element Dna chain. -/
theorem spec_C6_witness :
    bufDna.iter_back.length = bufDna.len ∧
    (∀ j, j < bufDna.len →
      (bufDna.iter_back.get? j).map (·.header) =
        bufDna.headerAt (bufDna.len - 1 - j)) ∧
    (∀ j sh sh', bufDna.iter_back.get? j = some sh →
      bufDna.iter_back.get? (j + 1) = some sh' →
      sh.header.prevHeader = some (hashHeader sh'.header) ∧
      sh'.header.headerSeq + 1 = sh.header.headerSeq) ∧
    (∀ shl, bufDna.iter_back.getLast? = some shl →
      shl.header.prevHeader = none ∧ shl.header.headerSeq = 0 ∧
      ∃ au ts dh, shl.header = .Dna au ts dh) :=
  spec_C6 bufDna (by decide) (by decide)

/-- C8: `has_genesis` returns true exactly when the chain length is at
least 3, over every source-chain state, structurally valid or not: it
is a pure length check and performs no structural validation. -/
theorem spec_C8 (buf : SourceChainBuf) :
    buf.has_genesis = true ↔ 3 ≤ buf.len := by
  simp [SourceChainBuf.has_genesis, SourceChainBuf.len, ge_iff_le]

/-- C10: `has_initialized` returns true exactly when the chain length
is strictly greater than 3; a chain of exactly 3 elements satisfies
`has_genesis` but not `has_initialized`. -/
theorem spec_C10 (buf : SourceChainBuf) :
    (buf.has_initialized = true ↔ 3 < buf.len) ∧
    (buf.len = 3 → buf.has_genesis = true ∧ buf.has_initialized = false) := by
  refine ⟨by simp [SourceChainBuf.has_initialized], fun h => ⟨?_, ?_⟩⟩
  · have : buf.sequence.len = 3 := h
    simp [SourceChainBuf.has_genesis, this]
  · simp [SourceChainBuf.has_initialized, h]

/-- Witness for C10 on the chain produced by `genesis`. -/
theorem spec_C10_witness :
    bufGen3.has_genesis = true ∧ bufGen3.has_initialized = false :=
  (spec_C10 bufGen3).2 (by decide)

/-- C9: `put_raw` performs no header/entry consistency check: for every
fully-formed header and every optional entry, including mismatched
pairs, if signing succeeds it returns the header address and stores the
pair exactly as given. -/
theorem spec_C9 (buf : SourceChainBuf) (header : Header)
    (maybe_entry : Option Entry) (sig : Signature)
    (hk : buf.keystore header = some sig) :
    ∃ buf', buf.put_raw header maybe_entry = .ok (hashHeader header, buf') ∧
      buf'.get_element (hashHeader header) = some (⟨header, sig⟩, maybe_entry) ∧
      buf'.len = buf.len + 1 := by
  refine ⟨{ buf with
      sequence := buf.sequence.put_header (hashHeader header)
      elements := buf.elements.put ⟨header, sig⟩ maybe_entry }, ?_, ?_, ?_⟩
  · simp [SourceChainBuf.put_raw, hk]
  · simp [SourceChainBuf.get_element, ElementBuf.put,
      SignedHeaderHashed.header_address]
  · simp [SourceChainBuf.len, ChainSequenceBuf.len, ChainSequenceBuf.put_header]

/-- Witness for C9: a Dna header (which carries no entry) staged with an
unrelated application entry is accepted without any mismatch error. -/
theorem spec_C9_witness :
    ∃ buf', emptyBuf.put_raw hDna0 (some (.App 3)) =
        .ok (hashHeader hDna0, buf') ∧
      buf'.get_element (hashHeader hDna0) =
        some (⟨hDna0, ⟨0⟩⟩, some (.App 3)) ∧
      buf'.len = emptyBuf.len + 1 :=
  spec_C9 emptyBuf hDna0 (some (.App 3)) ⟨0⟩ (by rfl)

/-- C7: append atomicity.  If `put_raw` returns an address, then
`get_element` at that address, before any flush, returns exactly the
element just staged. -/
theorem spec_C7 (buf : SourceChainBuf) (header : Header)
    (maybe_entry : Option Entry) (sig : Signature) (addr : HeaderHash)
    (buf' : SourceChainBuf)
    (hk : buf.keystore header = some sig)
    (hp : buf.put_raw header maybe_entry = .ok (addr, buf')) :
    buf'.get_element addr = some (⟨header, sig⟩, maybe_entry) := by
  simp [SourceChainBuf.put_raw, hk] at hp
  obtain ⟨ha, hb⟩ := hp
  subst ha
  subst hb
  simp [SourceChainBuf.get_element, ElementBuf.put,
    SignedHeaderHashed.header_address]

/-- Witness for C7 on a concrete staged element. -/
theorem spec_C7_witness :
    bufDnaCreate.get_element (hashHeader hCreate1) =
      some (⟨hCreate1, ⟨0⟩⟩, none) :=
  spec_C7 bufDna hCreate1 none ⟨0⟩ (hashHeader hCreate1) bufDnaCreate
    (by rfl) (by rfl)

/-- C2: in the call-zome workflow, validation failures abort the call:
a non-accepted system-validation outcome on an indexed new element
aborts immediately with a typed invalid-commit error carrying the
reason or missing-dependency list; a failing application-validation
element aborts the loop at that element, with the same error no matter
which elements follow it in the batch; every application-validation
failure is a typed invalid-link, invalid-commit or missing-dependency
error; and the workspace is flushed to durable storage, as one
transaction, exactly when the inner workflow returns success — on
error the durable state is returned untouched. -/
theorem spec_C2 {Durable : Type} (env : Workflow.WorkflowEnv Durable) :
    (∀ workspace durable e,
      (Workflow.call_zome_workflow env workspace durable).1 = .error e →
      (Workflow.call_zome_workflow env workspace durable).2 = durable) ∧
    (∀ workspace durable r,
      (Workflow.call_zome_workflow env workspace durable).1 = .ok r →
      (Workflow.call_zome_workflow env workspace durable).2 =
        env.flush_to_txn
          (Workflow.call_zome_workflow_inner env workspace).2 durable) ∧
    (∀ workspace i fuel element reason,
      workspace.source_chain.get_at_index i = some element →
      env.sys_validate_element element = .Rejected reason →
      Workflow.sys_validation_loop env workspace i (fuel + 1) =
        .error (.sourceChainError (.InvalidCommit (.text reason)))) ∧
    (∀ workspace i fuel element hashes,
      workspace.source_chain.get_at_index i = some element →
      env.sys_validate_element element = .AwaitingDeps hashes →
      Workflow.sys_validation_loop env workspace i (fuel + 1) =
        .error (.sourceChainError (.InvalidCommit (.deps hashes)))) ∧
    (∀ xs y zs e,
      (∀ x ∈ xs, Workflow.app_validate_element env x = .ok ()) →
      Workflow.app_validate_element env y = .error e →
      Workflow.app_validation_loop env (xs ++ y :: zs) = .error e) ∧
    (∀ element e,
      Workflow.app_validate_element env element = .error e →
      (∃ reason, e = .sourceChainError (.InvalidLink reason)) ∨
      (∃ m, e = .sourceChainError (.InvalidCommit m)) ∨
      (∃ hash, e = .ribosomeError (.ElementDeps hash))) := by
  refine ⟨?_, ?_, ?_, ?_, ?_, ?_⟩
  · intro ws d e h
    unfold Workflow.call_zome_workflow at h ⊢
    rcases hinner : Workflow.call_zome_workflow_inner env ws with ⟨res, ws'⟩
    rw [hinner] at h
    cases res with
    | error e' => rfl
    | ok r => exact Except.noConfusion h
  · intro ws d r h
    unfold Workflow.call_zome_workflow at h ⊢
    rcases hinner : Workflow.call_zome_workflow_inner env ws with ⟨res, ws'⟩
    rw [hinner] at h
    cases res with
    | error e' => exact Except.noConfusion h
    | ok r' => rfl
  · intro ws i fuel el reason hget hsys
    simp only [Workflow.sys_validation_loop, hget, hsys]
  · intro ws i fuel el hashes hget hsys
    simp only [Workflow.sys_validation_loop, hget, hsys]
  · intro xs y zs e hxs hy
    induction xs with
    | nil => simp [Workflow.app_validation_loop, hy]
    | cons x xs ih =>
      have hx := hxs x (by simp)
      simp only [List.cons_append, Workflow.app_validation_loop, hx]
      exact ih (fun x' hx' => hxs x' (by simp [hx']))
  · intro el e h
    unfold Workflow.app_validate_element at h
    split at h
    all_goals try (repeat' split at h)
    all_goals try exact Except.noConfusion h
    all_goals injection h with he
    all_goals subst he
    all_goals
      first
      | exact Or.inl ⟨_, rfl⟩
      | exact Or.inr (Or.inl ⟨_, rfl⟩)
      | exact Or.inr (Or.inr ⟨_, rfl⟩)

/-- Witness for C2: a rejected element aborts system validation with
the typed error, a rejected element aborts application validation
regardless of what follows it, a failing workflow leaves the durable
counter untouched, and a successful workflow performs the single
flush. -/
theorem spec_C2_witness :
    Workflow.sys_validation_loop envNat ⟨bufDnaCreate⟩ 1 1 =
      .error (.sourceChainError (.InvalidCommit (.text "sys"))) ∧
    Workflow.app_validation_loop envNat [elDna, elCreate, elDna] =
      .error (.sourceChainError (.InvalidCommit (.text "app"))) ∧
    (Workflow.call_zome_workflow envNat2 ⟨bufDna⟩ 5).2 = 5 ∧
    (Workflow.call_zome_workflow envNat wsCreate 5).2 =
      envNat.flush_to_txn
        (Workflow.call_zome_workflow_inner envNat wsCreate).2 5 :=
  ⟨(spec_C2 envNat).2.2.1 ⟨bufDnaCreate⟩ 1 0 elCreate "sys"
     (by decide) (by decide),
   (spec_C2 envNat).2.2.2.2.1 [elDna] elCreate [elDna]
     (.sourceChainError (.InvalidCommit (.text "app")))
     (by decide) (by decide),
   (spec_C2 envNat2).1 ⟨bufDna⟩ 5
     (.sourceChainError (.InvalidCommit (.text "sys"))) (by decide),
   (spec_C2 envNat).2.1 wsCreate 5 (.ok ⟨0⟩) (by decide)⟩

/-- C1: the gatekeeper returns `HeadMoved` exactly when the
authoritative root differs from the observed root and the transaction
is not rebasable, and in that case the durable state is returned
untouched; when the root is unmoved the transaction is applied as
prepared, and when it moved but is rebasable the rebased transaction is
applied; both of those cases return Ok. -/
theorem spec_C1 {Addr Store Tx : Type} [DecidableEq Addr]
    (ops : Gatekeep.LmdbOps Addr Store Tx) (st : Store) (next_write : Tx)
    (as_at : Addr) (rebasable : Bool) :
    ((Gatekeep.gatekeep ops st next_write as_at rebasable).1 =
        .error .HeadMoved ↔
      (ops.get_source_chain_root_hash st ≠ as_at ∧ rebasable = false)) ∧
    (ops.get_source_chain_root_hash st ≠ as_at → rebasable = false →
      Gatekeep.gatekeep ops st next_write as_at rebasable =
        (.error .HeadMoved, st)) ∧
    (ops.get_source_chain_root_hash st = as_at →
      Gatekeep.gatekeep ops st next_write as_at rebasable =
        (.ok (), ops.applyTx st next_write)) ∧
    (ops.get_source_chain_root_hash st ≠ as_at → rebasable = true →
      Gatekeep.gatekeep ops st next_write as_at rebasable =
        (.ok (), ops.applyTx st
          (ops.rebase_headers next_write
            (ops.get_source_chain_root_hash st) as_at))) := by
  unfold Gatekeep.gatekeep
  by_cases hroot : ops.get_source_chain_root_hash st = as_at <;>
    cases rebasable <;> simp [hroot]

/-- Witness for C1: all three gatekeeper cases on a concrete store. -/
theorem spec_C1_witness :
    Gatekeep.gatekeep opsNat [0] 5 1 false = (.ok (), [5, 0]) ∧
    Gatekeep.gatekeep opsNat [0] 5 0 false = (.error .HeadMoved, [0]) ∧
    Gatekeep.gatekeep opsNat [0] 5 0 true =
      (.ok (), [5 + 10 * 1 + 100 * 0, 0]) :=
  ⟨(spec_C1 opsNat [0] 5 1 false).2.2.1 (by decide),
   (spec_C1 opsNat [0] 5 0 false).2.1 (by decide) rfl,
   (spec_C1 opsNat [0] 5 0 true).2.2.2 (by decide) rfl⟩

/-- C5: the dedicated-task/actor variant and the direct-mutex variant
of `try_append_chain` are equivalent: over any queue of requests and
any starting durable state they return the same results in the same
order and leave the same durable state. -/
theorem spec_C5 {Addr Store Tx : Type} [DecidableEq Addr]
    (ops : Gatekeep.LmdbOps Addr Store Tx) (st : Store)
    (requests : List (Gatekeep.Request Addr Tx)) :
    Gatekeep.try_append_chain_actor ops st requests =
      Gatekeep.mutex_calls ops st requests := by
  induction requests generalizing st with
  | nil => rfl
  | cons r rest ih =>
    obtain ⟨tx, as_at, rebasable⟩ := r
    simp only [Gatekeep.try_append_chain_actor, Gatekeep.start_loop,
      Gatekeep.mutex_calls, Gatekeep.try_append_chain_mutex]
    have := ih (Gatekeep.gatekeep ops st tx as_at rebasable).2
    simp only [Gatekeep.try_append_chain_actor] at this
    rw [this]

end Holochain
